import Mathlib

/-!
# Verification of the Word-Chain userbot core

Shallow embedding of the repository's core modules and proofs about them:

* `src/core/state.py`   — `LetterState`, `GuessResult`, `GameState`
* `src/core/parser.py`  — `GameResponseParser.parse_emoji_grid`
* `src/core/solver.py`  — `WordleSolver.reset / update_with_result /
  filter_possible_words / _word_meets_constraints`
* `src/userbot_manager.py` — `UserSession.load_session`, `UserBotManager`
  (`create_session`, `disconnect_session`, `_load_persisted_sessions`,
  `cleanup_stale_sessions`)
* `src/handlers/bot_handlers.py` — the cancellation handler of
  `auto_play_game`

Python strings are embedded as `List Char`, timestamps as `Nat`
(round-trip and comparison claims do not depend on timestamp arithmetic
beyond ordering and truncated subtraction, which matches the float
comparisons `now - t > TIMEOUT` used by the source for the values that
occur), Python `set`s as duplicate-free-by-construction `List`s with an
add-if-absent operation, and Python `dict`s as insertion-ordered
association lists, matching CPython's ordered-dict iteration.
-/

namespace WordChain

/-! ## Configuration constants (src/config.py) -/

def MAX_GUESSES : Nat := 6

def WORD_LENGTH : Nat := 5

def MAX_SESSIONS_PER_USER : Nat := 3

def SESSION_TIMEOUT : Nat := 3600

/-! ## src/core/state.py -/

/-- `LetterState` enum of src/core/state.py. -/
inductive LetterState where
  | correct
  | present
  | absent
  | unknown
deriving DecidableEq, Repr

/-- The `.value` string of each `LetterState` member. -/
def LetterState.value : LetterState → String
  | .correct => "correct"
  | .present => "present"
  | .absent => "absent"
  | .unknown => "unknown"

/-- `LetterState(s)`: recover a member from its value string, `none` when
the string is not a member value (Python raises `ValueError` there). -/
def letterStateOfValue (s : String) : Option LetterState :=
  if s = "correct" then some .correct
  else if s = "present" then some .present
  else if s = "absent" then some .absent
  else if s = "unknown" then some .unknown
  else none

/-- `GuessResult` dataclass of src/core/state.py. -/
structure GuessResult where
  word : List Char
  states : List LetterState
  turn : Nat
deriving DecidableEq, Repr

/-- `GuessResult.is_win`: all states are CORRECT. -/
def GuessResult.is_win (r : GuessResult) : Bool :=
  r.states.all (· == LetterState.correct)

/-- `GameState` dataclass of src/core/state.py. -/
structure GameState where
  game_id : String
  started_at : Nat
  guesses : List GuessResult
  solved : Bool
  failed : Bool
  target_word : Option (List Char)
deriving DecidableEq, Repr

/-- A fresh `GameState(game_id=gid)` as built by the dataclass defaults. -/
def GameState.fresh (gid : String) (t : Nat) : GameState :=
  { game_id := gid, started_at := t, guesses := [], solved := false,
    failed := false, target_word := none }

/-- `GameState.add_guess`: append the result; a win sets `solved`,
otherwise reaching 6 guesses sets `failed` (an `elif` in the source). -/
def GameState.add_guess (g : GameState) (r : GuessResult) : GameState :=
  let g' := { g with guesses := g.guesses ++ [r] }
  if r.is_win then { g' with solved := true }
  else if 6 ≤ g'.guesses.length then { g' with failed := true }
  else g'

/-- `GameState.is_active`. -/
def GameState.is_active (g : GameState) : Bool :=
  !(g.solved || g.failed)

/-- The dictionary shape produced for one guess by `GameState.to_dict`. -/
structure GuessDict where
  word : List Char
  states : List String
  turn : Nat
deriving DecidableEq, Repr

/-- The dictionary shape produced by `GameState.to_dict`. -/
structure GameStateDict where
  game_id : String
  started_at : Nat
  guesses : List GuessDict
  solved : Bool
  failed : Bool
  target_word : Option (List Char)
deriving DecidableEq, Repr

/-- `GameState.to_dict`. -/
def GameState.to_dict (g : GameState) : GameStateDict :=
  { game_id := g.game_id
    started_at := g.started_at
    guesses := g.guesses.map fun r =>
      { word := r.word, states := r.states.map LetterState.value, turn := r.turn }
    solved := g.solved
    failed := g.failed
    target_word := g.target_word }

/-- Element-wise `Option`-valued map, mirroring a Python list comprehension
whose element conversion can raise (`none` = the comprehension raised). -/
def mapOption {α β : Type} (f : α → Option β) : List α → Option (List β)
  | [] => some []
  | a :: as =>
    match f a, mapOption f as with
    | some b, some bs => some (b :: bs)
    | _, _ => none

/-- `GuessResult` reconstruction inside `GameState.from_dict`
(`LetterState(s)` raises on a bad value string, hence `Option`). -/
def GuessResult.ofDict (d : GuessDict) : Option GuessResult :=
  match mapOption letterStateOfValue d.states with
  | some sts => some { word := d.word, states := sts, turn := d.turn }
  | none => none

/-- `GameState.from_dict`. -/
def GameState.from_dict (d : GameStateDict) : Option GameState :=
  match mapOption GuessResult.ofDict d.guesses with
  | some gs =>
    some { game_id := d.game_id, started_at := d.started_at, guesses := gs,
           solved := d.solved, failed := d.failed, target_word := d.target_word }
  | none => none

/-! ## src/core/solver.py -/

/-- `WordleSolver` constraint state.  `words` is the full dictionary loaded
at construction; Python `set`/`dict` fields are lists (see header). -/
structure WordleSolver where
  words : List (List Char)
  possible_words : List (List Char)
  correct_positions : List (Option Char)
  present_letters : List Char
  absent_letters : List Char
  known_letter_counts : List (Char × Nat)
deriving DecidableEq, Repr

/-- `set.add`: append the element unless already a member. -/
def addChar (s : List Char) (c : Char) : List Char :=
  if c ∈ s then s else s ++ [c]

/-- `d.get(c, 0)` on the min-count dict (dict keys are unique, so the
binding — embedded as the first matching entry — wins; default 0). -/
def lookupCount : List (Char × Nat) → Char → Nat
  | [], _ => 0
  | p :: m, c => if p.1 = c then p.2 else lookupCount m c

/-- `d[c] = n` on the min-count dict: overwrite the existing binding in
place, else append a new one. -/
def setCount : List (Char × Nat) → Char → Nat → List (Char × Nat)
  | [], c, n => [(c, n)]
  | p :: m, c, n => if p.1 = c then (c, n) :: m else p :: setCount m c n

/-- `WordleSolver.reset`. -/
def WordleSolver.reset (s : WordleSolver) : WordleSolver :=
  { words := s.words
    possible_words := s.words
    correct_positions := List.replicate WORD_LENGTH none
    present_letters := []
    absent_letters := []
    known_letter_counts := [] }

/-- A solver as produced by `WordleSolver.__init__` for dictionary `ws`
(loads the word list, then calls `reset`). -/
def WordleSolver.init (ws : List (List Char)) : WordleSolver :=
  WordleSolver.reset
    { words := ws, possible_words := [], correct_positions := [],
      present_letters := [], absent_letters := [], known_letter_counts := [] }

/-- One iteration of the first pass of `update_with_result` over
`enumerate(zip(word, states))`: a CORRECT letter records position,
presence and a minimum count raised to this guess's count of the letter
(`wc`). -/
def pass1step (wc : Char → Nat) (s : WordleSolver)
    (p : Nat × Char × LetterState) : WordleSolver :=
  if p.2.2 = LetterState.correct then
    { s with
      correct_positions := s.correct_positions.set p.1 (some p.2.1)
      present_letters := addChar s.present_letters p.2.1
      known_letter_counts :=
        setCount s.known_letter_counts p.2.1
          (max (lookupCount s.known_letter_counts p.2.1) (wc p.2.1)) }
  else s

/-- First pass of `update_with_result`. -/
def pass1 (wc : Char → Nat) (s : WordleSolver)
    (pairs : List (Nat × Char × LetterState)) : WordleSolver :=
  pairs.foldl (pass1step wc) s

/-- One iteration of the second pass: a PRESENT letter records presence,
and raises the minimum count unless that position's correct slot already
holds this letter. -/
def pass2step (wc : Char → Nat) (s : WordleSolver)
    (p : Nat × Char × LetterState) : WordleSolver :=
  if p.2.2 = LetterState.present then
    let s' := { s with present_letters := addChar s.present_letters p.2.1 }
    if s'.correct_positions.getD p.1 none ≠ some p.2.1 then
      { s' with
        known_letter_counts :=
          setCount s'.known_letter_counts p.2.1
            (max (lookupCount s'.known_letter_counts p.2.1) (wc p.2.1)) }
    else s'
  else s

/-- Second pass of `update_with_result`. -/
def pass2 (wc : Char → Nat) (s : WordleSolver)
    (pairs : List (Nat × Char × LetterState)) : WordleSolver :=
  pairs.foldl (pass2step wc) s

/-- One iteration of the third pass: an ABSENT letter is recorded only
when not already known present and not recorded in any correct-position
slot. -/
def pass3step (s : WordleSolver) (p : Nat × Char × LetterState) : WordleSolver :=
  if p.2.2 = LetterState.absent then
    if p.2.1 ∉ s.present_letters ∧ (some p.2.1) ∉ s.correct_positions then
      { s with absent_letters := addChar s.absent_letters p.2.1 }
    else s
  else s

/-- Third pass of `update_with_result`. -/
def pass3 (s : WordleSolver)
    (pairs : List (Nat × Char × LetterState)) : WordleSolver :=
  pairs.foldl pass3step s

/-- `WordleSolver.update_with_result`: the three ordered passes, with
`word_counts` the letter frequencies of this guess. -/
def WordleSolver.update_with_result (s : WordleSolver)
    (word : List Char) (states : List LetterState) : WordleSolver :=
  let wc := fun c => word.count c
  let pairs := (word.zip states).enum
  pass3 (pass2 wc (pass1 wc s pairs) pairs) pairs

/-- The correct-position loop of `_word_meets_constraints`: slot `i` is
checked against `word[i]`; a `None` slot short-circuits before indexing;
a set slot beyond the word's end fails (Python would raise there, which
never happens on the length-5 dictionary; a failing word is filtered out
either way). -/
def checkCorrect : List (Option Char) → List Char → Bool
  | [], _ => true
  | none :: slots, [] => checkCorrect slots []
  | none :: slots, _ :: w => checkCorrect slots w
  | some _ :: _, [] => false
  | some c :: slots, ch :: w => (ch == c) && checkCorrect slots w

/-- `WordleSolver._word_meets_constraints`. -/
def WordleSolver.word_meets_constraints (s : WordleSolver) (word : List Char) : Bool :=
  checkCorrect s.correct_positions word
    && s.absent_letters.all (fun c => !(decide (c ∈ word)))
    && s.present_letters.all (fun c => decide (c ∈ word))
    && s.known_letter_counts.all (fun p => decide (p.2 ≤ word.count p.1))

/-- `WordleSolver.filter_possible_words`: keep the candidates meeting the
constraints; if none remain, `reset()` instead. -/
def WordleSolver.filter_possible_words (s : WordleSolver) : WordleSolver :=
  let new_possible := s.possible_words.filter (fun w => s.word_meets_constraints w)
  if new_possible.isEmpty then s.reset
  else { s with possible_words := new_possible }

/-- One solver step of the feedback loop: `update_with_result` on one
`(word, states)` pair followed by `filter_possible_words`. -/
def solverStep (s : WordleSolver) (p : List Char × List LetterState) : WordleSolver :=
  (s.update_with_result p.1 p.2).filter_possible_words

/-- The solver state after a reset followed by a whole sequence of
`(word, states)` feedback pairs, each applied through
`update_with_result` + `filter_possible_words`. -/
def runSolver (ws : List (List Char))
    (pairs : List (List Char × List LetterState)) : WordleSolver :=
  pairs.foldl solverStep (WordleSolver.init ws)

/-- The four accumulated constraints of the spec, spelled out on a word:
every set correct-position slot matches, no absent letter occurs, every
present letter occurs, and every recorded minimum count is met. -/
def satisfiesConstraints (s : WordleSolver) (word : List Char) : Prop :=
  (∀ i c, s.correct_positions.get? i = some (some c) → word.get? i = some c)
    ∧ (∀ c ∈ s.absent_letters, c ∉ word)
    ∧ (∀ c ∈ s.present_letters, c ∈ word)
    ∧ (∀ c, lookupCount s.known_letter_counts c ≤ word.count c)

/-! ## src/core/parser.py -/

/-- U+1F7E9 LARGE GREEN SQUARE. -/
def greenSquare : Char := Char.ofNat 0x1F7E9

/-- U+1F7E8 LARGE YELLOW SQUARE. -/
def yellowSquare : Char := Char.ofNat 0x1F7E8

/-- U+2B1B BLACK LARGE SQUARE. -/
def blackSquare : Char := Char.ofNat 0x2B1B

/-- U+2B1C WHITE LARGE SQUARE. -/
def whiteSquare : Char := Char.ofNat 0x2B1C

/-- U+1F7E6 LARGE BLUE SQUARE. -/
def blueSquare : Char := Char.ofNat 0x1F7E6

/-- The class attribute `EMOJI_MAP` as a lookup. -/
def EMOJI_MAP (c : Char) : Option LetterState :=
  if c = greenSquare then some .correct
  else if c = yellowSquare then some .present
  else if c = blackSquare then some .absent
  else if c = whiteSquare then some .absent
  else if c = blueSquare then some .absent
  else none

/-- The character class kept by `re.sub(r'[^\U0001F7E5-\U0001F7FF]', '', line)`:
only code points in U+1F7E5..U+1F7FF survive. -/
def inSquareRange (c : Char) : Bool :=
  0x1F7E5 ≤ c.toNat && c.toNat ≤ 0x1F7FF

/-- `text.split('\n')`. -/
def splitLines : List Char → List (List Char)
  | [] => [[]]
  | c :: rest =>
    if c = '\n' then [] :: splitLines rest
    else
      match splitLines rest with
      | [] => [[c]]
      | l :: ls => (c :: l) :: ls

/-- Per-line loop of `parse_emoji_grid`: first line whose filtered glyph
count is exactly 5 is decoded; an unmapped glyph or a guess word whose
length is not 5 returns `none` for the whole call. -/
def parseLines (guess_word : List Char) (turn : Nat) :
    List (List Char) → Option GuessResult
  | [] => none
  | line :: rest =>
    let cleaned := line.filter inSquareRange
    if cleaned.length = 5 then
      match mapOption EMOJI_MAP cleaned with
      | none => none
      | some states =>
        if guess_word.length = 5 then
          some { word := guess_word.map Char.toLower, states := states, turn := turn }
        else none
    else parseLines guess_word turn rest

/-- `GameResponseParser.parse_emoji_grid`. -/
def parse_emoji_grid (text : List Char) (guess_word : List Char) (turn : Nat) :
    Option GuessResult :=
  parseLines guess_word turn (splitLines text)

/-! ## src/userbot_manager.py

The registry key is the Python string `f"{user_id}_{session_name}"`.  The
command handlers only admit alphanumeric session names and Telegram ids
are numerals, so the key string determines and is determined by the pair
`(user_id, session_name)`, and `key.startswith(f"{uid}_")` holds exactly
for that user's keys; the embedding uses the pair directly. -/

/-- The `(user_id, session_name)` identity behind a registry key string. -/
structure SessionKey where
  user_id : Nat
  session_name : String
deriving DecidableEq, Repr

/-- The JSON record written by `UserSession._save_session` (also the shape
read back by `load_session`). -/
structure PersistRecord where
  user_id : Nat
  session_name : String
  active : Bool
  last_activity : Nat
  game_state : Option GameStateDict
deriving DecidableEq, Repr

/-- In-memory `UserSession` (the solver member is independent state and
not needed by the registry claims; `has_task` models
`task is not None and not task.done()`). -/
structure UserSession where
  user_id : Nat
  session_name : String
  active : Bool
  last_activity : Nat
  game_state : Option GameState
  has_task : Bool
deriving DecidableEq, Repr

/-- `UserSession._save_session` record contents for a session (only
written when `game_state` is set; the caller models that guard). -/
def save_record (s : UserSession) : PersistRecord :=
  { user_id := s.user_id, session_name := s.session_name, active := s.active,
    last_activity := s.last_activity,
    game_state := s.game_state.map GameState.to_dict }

/-- Result of `UserSession.load_session`: the returned session (if any)
and whether the durable file was deleted (`session_file.unlink`). -/
structure LoadResult where
  result : Option UserSession
  file_deleted : Bool
deriving DecidableEq, Repr

/-- `UserSession.load_session` on the record found in the session file
(`none` = no file).  A record whose game state fails to reconstruct makes
`GameState.from_dict` raise, which the `except` turns into `None`.  The
staleness check deletes the file and returns `None` only when the record
is `active` and idle beyond `SESSION_TIMEOUT` (`now - last > TIMEOUT`,
truncated subtraction matching the float comparison for `last ≤ now`, and
both sides giving a false comparison when `last > now`). -/
def load_session (now : Nat) (file : Option PersistRecord) : LoadResult :=
  match file with
  | none => { result := none, file_deleted := false }
  | some data =>
    let loaded : Option (Option GameState) :=
      match data.game_state with
      | none => some none
      | some gd =>
        match GameState.from_dict gd with
        | some g => some (some g)
        | none => none
    match loaded with
    | none => { result := none, file_deleted := false }
    | some gs =>
      let session : UserSession :=
        { user_id := data.user_id, session_name := data.session_name,
          active := data.active, last_activity := data.last_activity,
          game_state := gs, has_task := false }
      if session.active ∧ SESSION_TIMEOUT < now - session.last_activity then
        { result := none, file_deleted := true }
      else
        { result := some session, file_deleted := false }

/-- The registry's session map: insertion-ordered, and `Option`-valued
because `_load_persisted_sessions` stores `load_session`'s result
directly, which can be `None`. -/
abbrev LoadedRegistry : Type := List (SessionKey × Option UserSession)

/-- `self.sessions[key] = v` on a Python dict: overwrite in place, else
append. -/
def dictSetOpt (m : LoadedRegistry) (k : SessionKey) (v : Option UserSession) :
    LoadedRegistry :=
  if m.any (fun kv => kv.1 == k) then
    m.map (fun kv => if kv.1 == k then (k, v) else kv)
  else m ++ [(k, v)]

/-- `UserBotManager._load_persisted_sessions`: each readable record is
loaded through `UserSession.load_session` and the result — `None`
included — is stored under its key. -/
def load_persisted_sessions (now : Nat) (files : List PersistRecord) :
    LoadedRegistry :=
  files.foldl
    (fun m data =>
      dictSetOpt m ⟨data.user_id, data.session_name⟩
        (load_session now (some data)).result)
    []

/-- The session map in the well-formed states the mutation operations
assume (every key bound to an actual session). -/
abbrev Registry : Type := List (SessionKey × UserSession)

/-- `self.sessions[key] = session` on the well-formed map. -/
def dictSet (m : Registry) (k : SessionKey) (v : UserSession) : Registry :=
  if m.any (fun kv => kv.1 == k) then
    m.map (fun kv => if kv.1 == k then (k, v) else kv)
  else m ++ [(k, v)]

/-- `self.sessions[k]` lookup (first binding). -/
def lookupSession (m : Registry) (k : SessionKey) : Option UserSession :=
  (m.find? (fun kv => kv.1 == k)).map (·.2)

/-- `self.sessions[k].last_activity` as used by the eviction `min` (the
key always comes from the map itself). -/
def activityOf (m : Registry) (k : SessionKey) : Nat :=
  match lookupSession m k with
  | some s => s.last_activity
  | none => 0

/-- Result of `UserBotManager.disconnect_session`: the new map, whether a
session existed, whether its task was cancelled, and whether its durable
record was removed. -/
structure DisconnectResult where
  registry : Registry
  existed : Bool
  cancelled_task : Bool
  removed_record : Bool
deriving Repr

/-- `UserBotManager.disconnect_session`. -/
def disconnect_session (m : Registry) (k : SessionKey) : DisconnectResult :=
  match lookupSession m k with
  | none => { registry := m, existed := false, cancelled_task := false,
              removed_record := false }
  | some s =>
    { registry := m.filter (fun kv => !(kv.1 == k)),
      existed := true, cancelled_task := s.has_task, removed_record := true }

/-- The keys of one user's sessions
(`[k for k in self.sessions if k.startswith(f"{user_id}_")]`). -/
def userKeys (m : Registry) (uid : Nat) : List SessionKey :=
  (m.filter (fun kv => kv.1.user_id == uid)).map (·.1)

/-- `min(user_sessions, key=lambda k: self.sessions[k].last_activity)`:
the first key attaining the minimal `last_activity`, as Python's `min`
returns on the dict's insertion order. -/
def oldestKey (m : Registry) (k : SessionKey) (ks : List SessionKey) : SessionKey :=
  ks.foldl (fun best k2 => if activityOf m k2 < activityOf m best then k2 else best) k

/-- Result of `UserBotManager.create_session`. -/
structure CreateResult where
  registry : Registry
  created : UserSession
  evicted : Option SessionKey
  evict_cancelled_task : Bool
  evict_removed_record : Bool
deriving Repr

/-- `UserBotManager.create_session`: at or above the per-user cap, the
user's least-recently-active session is disconnected first, then the new
session is stored under its key.  (Python's `min` raises on an empty
list; under the cap check with cap = 3 the list is never empty, and the
unreachable branch creates without evicting.) -/
def create_session (m : Registry) (uid : Nat) (session_name : String) (now : Nat) :
    CreateResult :=
  let key : SessionKey := ⟨uid, session_name⟩
  let fresh : UserSession :=
    { user_id := uid, session_name := session_name, active := false,
      last_activity := now, game_state := none, has_task := false }
  if MAX_SESSIONS_PER_USER ≤ (userKeys m uid).length then
    match userKeys m uid with
    | [] =>
      { registry := dictSet m key fresh, created := fresh, evicted := none,
        evict_cancelled_task := false, evict_removed_record := false }
    | k0 :: ks =>
      let oldest := oldestKey m k0 ks
      let d := disconnect_session m oldest
      { registry := dictSet d.registry key fresh, created := fresh,
        evicted := some oldest, evict_cancelled_task := d.cancelled_task,
        evict_removed_record := d.removed_record }
  else
    { registry := dictSet m key fresh, created := fresh, evicted := none,
      evict_cancelled_task := false, evict_removed_record := false }

/-- One pass of the `cleanup_stale_sessions` background sweep: delete
every entry that is inactive and idle beyond `SESSION_TIMEOUT`. -/
def cleanup_stale_once (now : Nat) (m : Registry) : Registry :=
  m.filter (fun kv =>
    !(!kv.2.active && decide (SESSION_TIMEOUT < now - kv.2.last_activity)))

/-! ## src/handlers/bot_handlers.py — cancellation handler -/

/-- The state `auto_play_game` can touch from its
`except asyncio.CancelledError` handler: the session object and that
session's durable record. -/
structure TaskWorld where
  session : UserSession
  persisted : Option PersistRecord
deriving DecidableEq, Repr

/-- `UserSession._save_session` from a `TaskWorld`: writes the record
unless `game_state` is unset. -/
def save_session (w : TaskWorld) : TaskWorld :=
  match w.session.game_state with
  | none => w
  | some _ => { w with persisted := some (save_record w.session) }

/-- The `except asyncio.CancelledError` handler of `auto_play_game`
(bot_handlers.py lines 259-263): it logs, sets `session.active = False`,
replies, and re-raises (`raise`).  The returned `Bool` is whether the
cancellation was re-raised to the caller.  The handler contains no call
to `_save_session`, so the durable record is left as it was. -/
def on_cancelled (w : TaskWorld) : TaskWorld × Bool :=
  ({ w with session := { w.session with active := false } }, true)

/-! ## Theorems: GameState serialization (C4) -/

theorem letterStateOfValue_value (s : LetterState) :
    letterStateOfValue s.value = some s := by
  cases s <;> rfl

theorem mapOption_letterState (l : List LetterState) :
    mapOption letterStateOfValue (l.map LetterState.value) = some l := by
  induction l with
  | nil => rfl
  | cons a as ih => simp [mapOption, letterStateOfValue_value, ih]

theorem ofDict_roundtrip (r : GuessResult) :
    GuessResult.ofDict
      { word := r.word, states := r.states.map LetterState.value, turn := r.turn }
      = some r := by
  simp [GuessResult.ofDict, mapOption_letterState]

theorem mapOption_guessDicts (l : List GuessResult) :
    mapOption GuessResult.ofDict
      (l.map fun r =>
        ({ word := r.word, states := r.states.map LetterState.value,
           turn := r.turn } : GuessDict))
      = some l := by
  induction l with
  | nil => rfl
  | cons r rs ih => simp [mapOption, ofDict_roundtrip, ih]

/-- C4: for every `GameState g`, `GameState.from_dict (g.to_dict)`
reproduces `g` exactly — the same `game_id`, `started_at`, the identical
ordered sequence of guesses (each with equal word, states and turn), and
equal `solved`, `failed` and `target_word` fields. -/
theorem C4_to_dict_from_dict_roundtrip (g : GameState) :
    GameState.from_dict (GameState.to_dict g) = some g := by
  simp [GameState.to_dict, GameState.from_dict, mapOption_guessDicts]

/-! ## Theorems: GameState transitions (C3) -/

/-- A fresh `GameState` taken through a whole sequence of
`add_guess` calls. -/
def applyGuesses (gid : String) (t : Nat) (rs : List GuessResult) : GameState :=
  rs.foldl GameState.add_guess (GameState.fresh gid t)

theorem add_guess_win (g : GameState) (r : GuessResult) (h : r.is_win = true) :
    (g.add_guess r).solved = true ∧ (g.add_guess r).failed = g.failed
      ∧ (g.add_guess r).guesses = g.guesses ++ [r] := by
  simp [GameState.add_guess, h]

theorem add_guess_nonwin (g : GameState) (r : GuessResult) (h : r.is_win = false) :
    (g.add_guess r).solved = g.solved
      ∧ ((g.add_guess r).failed = true ↔
          (g.failed = true ∨ 6 ≤ g.guesses.length + 1))
      ∧ (g.add_guess r).guesses = g.guesses ++ [r] := by
  by_cases h6 : 6 ≤ g.guesses.length + 1
  · simp [GameState.add_guess, h, h6]
  · simp [GameState.add_guess, h, h6]

theorem nonwin_run (rs : List GuessResult) (g : GameState)
    (h : ∀ r ∈ rs, r.is_win = false) :
    (rs.foldl GameState.add_guess g).guesses.length = g.guesses.length + rs.length
      ∧ (rs.foldl GameState.add_guess g).solved = g.solved
      ∧ ((rs.foldl GameState.add_guess g).failed = true ↔
          (g.failed = true ∨ (rs ≠ [] ∧ 6 ≤ g.guesses.length + rs.length))) := by
  induction rs generalizing g with
  | nil => simp
  | cons r rs ih =>
    have hr : r.is_win = false := h r (by simp)
    have hrs : ∀ x ∈ rs, x.is_win = false := fun x hx => h x (by simp [hx])
    obtain ⟨ihl, ihs, ihf⟩ := ih (g.add_guess r) hrs
    obtain ⟨hs, hf, hg⟩ := add_guess_nonwin g r hr
    refine ⟨?_, ?_, ?_⟩
    · simp only [List.foldl_cons] at *
      rw [ihl, hg]
      simp only [List.length_append, List.length_cons, List.length_nil]
      omega
    · simp only [List.foldl_cons] at *
      rw [ihs, hs]
    · simp only [List.foldl_cons] at *
      rw [ihf, hg]
      simp only [List.length_append, List.length_cons, List.length_nil]
      constructor
      · rintro (hf1 | ⟨-, hle⟩)
        · rcases hf.mp hf1 with h1 | h1
          · exact Or.inl h1
          · exact Or.inr ⟨by simp, by omega⟩
        · exact Or.inr ⟨by simp, by omega⟩
      · rintro (h1 | ⟨-, hle⟩)
        · exact Or.inl (hf.mpr (Or.inl h1))
        · by_cases hrs0 : rs = []
          · subst hrs0
            exact Or.inl (hf.mpr (Or.inr (by simp at hle ⊢; omega)))
          · exact Or.inr ⟨hrs0, by simp; omega⟩

theorem applyGuesses_take_concat (gid : String) (t : Nat)
    (L : List GuessResult) (b : GuessResult) :
    applyGuesses gid t (L ++ [b]) = (applyGuesses gid t L).add_guess b := by
  simp [applyGuesses]

/-- C3 (amended): from a fresh `GameState`, six `add_guess` calls with no
winning result yield `failed = true` and `solved = false`; a winning
result after fewer than six non-winning calls yields `solved = true` and
`failed = false`; and `solved` and `failed` are never both true in any
state reached by a sequence of `add_guess` calls that is only ever
applied to still-active states.  (Unrestricted `add_guess` sequences can
set both flags, see the counterexample.) -/
theorem C3_termination_flags_amended :
    (∀ gid t rs, rs.length = 6 → (∀ r ∈ rs, r.is_win = false) →
      (applyGuesses gid t rs).failed = true ∧ (applyGuesses gid t rs).solved = false)
    ∧ (∀ gid t rs r, rs.length < 6 → (∀ x ∈ rs, x.is_win = false) →
        r.is_win = true →
        (applyGuesses gid t (rs ++ [r])).solved = true
          ∧ (applyGuesses gid t (rs ++ [r])).failed = false)
    ∧ (∀ gid t rs,
        (∀ i, i < rs.length → (applyGuesses gid t (rs.take i)).is_active = true) →
        ¬((applyGuesses gid t rs).solved = true
            ∧ (applyGuesses gid t rs).failed = true)) := by
  refine ⟨?_, ?_, ?_⟩
  · intro gid t rs hlen hnw
    obtain ⟨hl, hs, hf⟩ := nonwin_run rs (GameState.fresh gid t) hnw
    refine ⟨hf.mpr (Or.inr ⟨by rintro rfl; simp at hlen, ?_⟩), by simpa [GameState.fresh] using hs⟩
    simp [GameState.fresh, hlen]
  · intro gid t rs r hlen hnw hw
    obtain ⟨hl, hs, hf⟩ := nonwin_run rs (GameState.fresh gid t) hnw
    obtain ⟨ws, wf, -⟩ := add_guess_win (applyGuesses gid t rs) r hw
    rw [applyGuesses_take_concat]
    refine ⟨ws, ?_⟩
    rw [wf]
    rcases hb : (applyGuesses gid t rs).failed with _ | _
    · rfl
    · exfalso
      rcases hf.mp hb with h1 | ⟨-, h1⟩
      · simp [GameState.fresh] at h1
      · simp [GameState.fresh] at h1
        omega
  · intro gid t rs hact
    rcases List.eq_nil_or_concat rs with rfl | ⟨L, b, rfl⟩
    · simp [applyGuesses, GameState.fresh]
    · simp only [List.concat_eq_append] at hact ⊢
      have hpre : (applyGuesses gid t L).is_active = true := by
        have := hact L.length (by simp)
        rwa [List.take_left] at this
      simp only [GameState.is_active, Bool.not_eq_true', Bool.or_eq_false_iff] at hpre
      rw [applyGuesses_take_concat]
      rcases hw : b.is_win with _ | _
      · obtain ⟨hs, -, -⟩ := add_guess_nonwin (applyGuesses gid t L) b hw
        rw [hs, hpre.1]
        rintro ⟨h1, -⟩
        exact Bool.false_ne_true h1
      · obtain ⟨-, hf, -⟩ := add_guess_win (applyGuesses gid t L) b hw
        rw [hf, hpre.2]
        rintro ⟨-, h2⟩
        exact Bool.false_ne_true h2

/-- A winning guess result used in concrete evaluations. -/
def winGuess : GuessResult :=
  { word := ['c','r','a','n','e'], states := List.replicate 5 .correct, turn := 1 }

/-- A non-winning (all-absent) guess result used in concrete evaluations. -/
def loseGuess (k : Nat) : GuessResult :=
  { word := ['s','l','a','t','e'], states := List.replicate 5 .absent, turn := k }

/-- C3 counterexample: the claim's invariant part is false for
unrestricted `add_guess` sequences — a win on the first call followed by
five non-winning calls reaches a state with `solved` and `failed` both
true. -/
theorem C3_solved_and_failed_counterexample :
    (applyGuesses "g" 0
        [winGuess, loseGuess 2, loseGuess 3, loseGuess 4, loseGuess 5, loseGuess 6]).solved
        = true
      ∧ (applyGuesses "g" 0
        [winGuess, loseGuess 2, loseGuess 3, loseGuess 4, loseGuess 5, loseGuess 6]).failed
        = true := by
  decide

theorem C3_termination_flags_witness :
    ((applyGuesses "g" 0
        [loseGuess 1, loseGuess 2, loseGuess 3, loseGuess 4, loseGuess 5, loseGuess 6]).failed
        = true
      ∧ (applyGuesses "g" 0
        [loseGuess 1, loseGuess 2, loseGuess 3, loseGuess 4, loseGuess 5, loseGuess 6]).solved
        = false)
    ∧ ((applyGuesses "g" 0 ([loseGuess 1] ++ [winGuess])).solved = true
      ∧ (applyGuesses "g" 0 ([loseGuess 1] ++ [winGuess])).failed = false)
    ∧ ¬((applyGuesses "g" 0 [loseGuess 1, winGuess]).solved = true
      ∧ (applyGuesses "g" 0 [loseGuess 1, winGuess]).failed = true) :=
  ⟨C3_termination_flags_amended.1 "g" 0 _ (by decide) (by decide),
   C3_termination_flags_amended.2.1 "g" 0 [loseGuess 1] winGuess (by decide) (by decide)
     (by decide),
   C3_termination_flags_amended.2.2 "g" 0 [loseGuess 1, winGuess] (by decide)⟩

theorem C4_roundtrip_witness :
    GameState.from_dict
        (GameState.to_dict (applyGuesses "g" 7 [loseGuess 1, winGuess]))
      = some (applyGuesses "g" 7 [loseGuess 1, winGuess]) :=
  C4_to_dict_from_dict_roundtrip _

/-! ## Theorems: parser (C2) -/

/-- The spec's example feedback line `"🟩🟨⬛⬛🟨"`. -/
def exampleGrid : List Char :=
  [greenSquare, yellowSquare, blackSquare, blackSquare, yellowSquare]

/-- C2: the claim is false on the code.  `parse_emoji_grid` filters each
line with the character class U+1F7E5..U+1F7FF, which drops the black
square U+2B1B, so the example line keeps only 3 glyphs, no line has
exactly 5, and the call returns `None` — not the claimed
`GuessResult("plane", [Correct, Present, Absent, Absent, Present], 1)`.
(The code contradicts its own docstring example and its `EMOJI_MAP`,
whose `⬛`/`⬜` entries are unreachable.) -/
theorem C2_parse_emoji_grid_black_squares_dropped :
    parse_emoji_grid exampleGrid ['p','l','a','n','e'] 1 = none
      ∧ (exampleGrid.filter inSquareRange).length = 3
      ∧ EMOJI_MAP blackSquare = some LetterState.absent := by
  decide

/-! ## Theorems: solver (C1, C8, C10) -/

theorem checkCorrect_spec (slots : List (Option Char)) (w : List Char)
    (h : checkCorrect slots w = true) :
    ∀ i c, slots.get? i = some (some c) → w.get? i = some c := by
  induction slots generalizing w with
  | nil => intro i c hc; simp at hc
  | cons slot slots ih =>
    cases slot with
    | none =>
      cases w with
      | nil =>
        intro i c hc
        cases i with
        | zero => simp at hc
        | succ i =>
          simp only [List.get?_cons_succ] at hc
          have := ih [] (by simpa [checkCorrect] using h) i c hc
          simp at this
      | cons ch w =>
        intro i c hc
        cases i with
        | zero => simp at hc
        | succ i => exact ih w (by simpa [checkCorrect] using h) i c hc
    | some c0 =>
      cases w with
      | nil => simp [checkCorrect] at h
      | cons ch w =>
        simp only [checkCorrect, Bool.and_eq_true, beq_iff_eq] at h
        intro i c hc
        cases i with
        | zero =>
          simp only [List.get?_cons_zero, Option.some.injEq] at hc
          subst hc
          simp [h.1]
        | succ i => exact ih w h.2 i c hc

theorem lookupCount_le (m : List (Char × Nat)) (cnt : Char → Nat)
    (h : ∀ p ∈ m, p.2 ≤ cnt p.1) (c : Char) : lookupCount m c ≤ cnt c := by
  induction m with
  | nil => simp [lookupCount]
  | cons p m ih =>
    rw [lookupCount]
    split
    · next hp => exact hp ▸ h p (by simp)
    · exact ih (fun q hq => h q (by simp [hq]))

theorem meets_imp (s : WordleSolver) (w : List Char)
    (h : s.word_meets_constraints w = true) : satisfiesConstraints s w := by
  unfold WordleSolver.word_meets_constraints at h
  simp only [Bool.and_eq_true] at h
  obtain ⟨⟨⟨h1, h2⟩, h3⟩, h4⟩ := h
  rw [List.all_eq_true] at h2 h3 h4
  refine ⟨checkCorrect_spec _ _ h1, ?_, ?_, ?_⟩
  · intro c hc hcw
    have := h2 c hc
    simp [hcw] at this
  · intro c hc
    have := h3 c hc
    simpa using this
  · exact lookupCount_le _ _ (fun p hp => by simpa using h4 p hp)

theorem satisfiesConstraints_reset (s : WordleSolver) (w : List Char) :
    satisfiesConstraints s.reset w := by
  refine ⟨?_, ?_, ?_, ?_⟩
  · intro i c hc
    simp only [WordleSolver.reset] at hc
    have hmem := List.get?_mem hc
    simp [List.mem_replicate] at hmem
  · intro c hc
    simp [WordleSolver.reset] at hc
  · intro c hc
    simp [WordleSolver.reset] at hc
  · intro c
    simp [WordleSolver.reset, lookupCount]

theorem filter_inv (s : WordleSolver) (w : List Char)
    (h : w ∈ s.filter_possible_words.possible_words) :
    satisfiesConstraints s.filter_possible_words w := by
  unfold WordleSolver.filter_possible_words at h ⊢
  cases he : (s.possible_words.filter (fun w => s.word_meets_constraints w)).isEmpty with
  | true =>
    simp only [he, if_pos] at h ⊢
    exact satisfiesConstraints_reset s w
  | false =>
    simp only [he, Bool.false_eq_true, if_neg, not_false_iff] at h ⊢
    exact meets_imp s w (List.mem_filter.mp h).2

theorem possible_invariant (pairs : List (List Char × List LetterState))
    (s : WordleSolver)
    (hs : ∀ w ∈ s.possible_words, satisfiesConstraints s w) :
    ∀ w ∈ (pairs.foldl solverStep s).possible_words,
      satisfiesConstraints (pairs.foldl solverStep s) w := by
  induction pairs generalizing s with
  | nil => exact hs
  | cons p ps ih =>
    simp only [List.foldl_cons]
    exact ih _ (fun w hw => filter_inv _ w hw)

/-- C1: after a reset and any sequence of `(word, states)` feedback pairs
each applied through `update_with_result` followed by
`filter_possible_words`, every word remaining in `possible_words`
satisfies all the solver's accumulated constraints: every set
correct-position slot matches, no `absent_letters` member occurs in the
word, every `present_letters` member occurs, and every recorded minimum
letter count is met.  (When a filter step empties the candidate set, the
source resets the solver, so the then-current — empty — constraints are
still satisfied by every candidate.) -/
theorem C1_candidates_satisfy_constraints (ws : List (List Char))
    (pairs : List (List Char × List LetterState)) (w : List Char)
    (h : w ∈ (runSolver ws pairs).possible_words) :
    satisfiesConstraints (runSolver ws pairs) w := by
  unfold runSolver
  refine possible_invariant pairs _ ?_ w h
  intro w _
  unfold WordleSolver.init
  exact satisfiesConstraints_reset _ w

/-- A two-word dictionary for concrete solver runs. -/
def demoDict : List (List Char) := [['c','r','a','n','e'], ['s','l','a','t','e']]

/-- One concrete feedback pair for concrete solver runs. -/
def demoPairs : List (List Char × List LetterState) :=
  [(['s','l','a','t','e'],
    [.absent, .absent, .correct, .absent, .present])]

theorem C1_candidates_satisfy_constraints_witness :
    satisfiesConstraints (runSolver demoDict demoPairs) ['c','r','a','n','e'] :=
  C1_candidates_satisfy_constraints demoDict demoPairs _ (by decide)

theorem foldl_preserve {α β : Type} (f : β → α → β) (P : β → β → Prop)
    (hrefl : ∀ b, P b b) (htrans : ∀ a b c, P a b → P b c → P a c)
    (hstep : ∀ b a, P b (f b a)) :
    ∀ (l : List α) (b : β), P b (l.foldl f b) := by
  intro l
  induction l with
  | nil => intro b; exact hrefl b
  | cons a as ih =>
    intro b
    exact htrans _ _ _ (hstep b a) (ih (f b a))

theorem mem_addChar (s : List Char) (c c' : Char) (h : c ∈ addChar s c') :
    c ∈ s ∨ c = c' := by
  unfold addChar at h
  by_cases hc : c' ∈ s
  · simp [hc] at h
    exact Or.inl h
  · simp [hc] at h
    exact h

theorem mem_addChar_of_mem (s : List Char) (c c' : Char) (h : c ∈ s) :
    c ∈ addChar s c' := by
  unfold addChar
  by_cases hc : c' ∈ s <;> simp [hc, h]

/-- `pass1step` and `pass2step` never touch `absent_letters`;
`pass3step` never touches `present_letters` or `correct_positions`,
and only adds letters to `absent_letters` that at that moment pass the
not-present-and-not-correct guard. -/
def Pass3Inv (s s' : WordleSolver) : Prop :=
  s'.present_letters = s.present_letters
    ∧ s'.correct_positions = s.correct_positions
    ∧ ∀ c ∈ s'.absent_letters,
        c ∈ s.absent_letters
          ∨ (c ∉ s.present_letters ∧ (some c) ∉ s.correct_positions)

theorem pass3step_inv (s : WordleSolver) (p : Nat × Char × LetterState) :
    Pass3Inv s (pass3step s p) := by
  unfold pass3step Pass3Inv
  split
  · split
    · next h2 =>
      refine ⟨rfl, rfl, ?_⟩
      intro c hc
      rcases mem_addChar _ _ _ hc with h | rfl
      · exact Or.inl h
      · exact Or.inr h2
    · exact ⟨rfl, rfl, fun c hc => Or.inl hc⟩
  · exact ⟨rfl, rfl, fun c hc => Or.inl hc⟩

theorem pass3_inv (s : WordleSolver) (pairs : List (Nat × Char × LetterState)) :
    Pass3Inv s (pass3 s pairs) := by
  refine foldl_preserve pass3step Pass3Inv (fun b => ⟨rfl, rfl, fun c hc => Or.inl hc⟩)
    ?_ pass3step_inv pairs s
  rintro a b c ⟨hp1, hs1, ha1⟩ ⟨hp2, hs2, ha2⟩
  refine ⟨hp2.trans hp1, hs2.trans hs1, ?_⟩
  intro x hx
  rcases ha2 x hx with h | h
  · exact ha1 x h
  · rw [hp1, hs1] at h
    exact Or.inr h

theorem pass1step_absent (wc : Char → Nat) (s : WordleSolver)
    (p : Nat × Char × LetterState) :
    (pass1step wc s p).absent_letters = s.absent_letters := by
  unfold pass1step
  split <;> rfl

theorem pass2step_absent (wc : Char → Nat) (s : WordleSolver)
    (p : Nat × Char × LetterState) :
    (pass2step wc s p).absent_letters = s.absent_letters := by
  unfold pass2step
  dsimp only
  split
  · split <;> rfl
  · rfl

theorem pass1_absent (wc : Char → Nat) (s : WordleSolver)
    (pairs : List (Nat × Char × LetterState)) :
    (pass1 wc s pairs).absent_letters = s.absent_letters := by
  refine foldl_preserve (pass1step wc)
    (fun b b' => b'.absent_letters = b.absent_letters) (fun b => rfl)
    (fun a b c h1 h2 => h2.trans h1) (fun b a => pass1step_absent wc b a) pairs s

theorem pass2_absent (wc : Char → Nat) (s : WordleSolver)
    (pairs : List (Nat × Char × LetterState)) :
    (pass2 wc s pairs).absent_letters = s.absent_letters := by
  refine foldl_preserve (pass2step wc)
    (fun b b' => b'.absent_letters = b.absent_letters) (fun b => rfl)
    (fun a b c h1 h2 => h2.trans h1) (fun b a => pass2step_absent wc b a) pairs s

/-- C8 (amended): after a reset and a SINGLE `update_with_result` call, no
letter is simultaneously in `absent_letters` and in `present_letters` or
a `correct_positions` slot — the third pass's guard checks the state as
of that call.  (Across several calls the invariant can fail, because a
later call can add a letter to `present_letters`/`correct_positions`
that an earlier call recorded as absent and nothing ever removes it; see
the counterexample.) -/
theorem C8_single_update_absent_disjoint (s : WordleSolver) (w : List Char)
    (st : List LetterState) (c : Char)
    (h : c ∈ ((s.reset).update_with_result w st).absent_letters) :
    c ∉ ((s.reset).update_with_result w st).present_letters
      ∧ (some c) ∉ ((s.reset).update_with_result w st).correct_positions := by
  unfold WordleSolver.update_with_result at h ⊢
  obtain ⟨hp, hs, ha⟩ := pass3_inv
    (pass2 (fun c => w.count c) (pass1 (fun c => w.count c) s.reset
      ((w.zip st).enum)) ((w.zip st).enum)) ((w.zip st).enum)
  rcases ha c h with habs | hguard
  · rw [pass2_absent, pass1_absent] at habs
    simp [WordleSolver.reset] at habs
  · rw [hp, hs]
    exact hguard

/-- Concrete two-update run: `slate` all-absent, then `crane` with the
`a` marked correct. -/
def c8state : WordleSolver :=
  ((WordleSolver.init []).update_with_result ['s','l','a','t','e']
      (List.replicate 5 .absent)).update_with_result
    ['c','r','a','n','e'] [.absent, .absent, .correct, .absent, .absent]

/-- C8 counterexample: after a reset and a sequence of two
`update_with_result` calls, the letter `a` is in `absent_letters` while
also being in `present_letters` and recorded in a `correct_positions`
slot, so the claimed invariant over arbitrary call sequences is false. -/
theorem C8_absent_overlap_counterexample :
    'a' ∈ c8state.absent_letters ∧ 'a' ∈ c8state.present_letters
      ∧ (some 'a') ∈ c8state.correct_positions := by
  decide

theorem C8_single_update_absent_disjoint_witness :
    's' ∉ (((WordleSolver.init []).reset).update_with_result
        ['s','l','a','t','e'] (List.replicate 5 .absent)).present_letters
      ∧ (some 's') ∉ (((WordleSolver.init []).reset).update_with_result
        ['s','l','a','t','e'] (List.replicate 5 .absent)).correct_positions :=
  C8_single_update_absent_disjoint (WordleSolver.init [])
    ['s','l','a','t','e'] (List.replicate 5 .absent) 's' (by decide)

theorem lookupCount_setCount_self (m : List (Char × Nat)) (c : Char) (n : Nat) :
    lookupCount (setCount m c n) c = n := by
  induction m with
  | nil => simp [setCount, lookupCount]
  | cons p m ih =>
    rw [setCount]
    split
    · simp [lookupCount]
    · next hp => rw [lookupCount, if_neg hp, ih]

theorem lookupCount_setCount_ne (m : List (Char × Nat)) (c c' : Char) (n : Nat)
    (h : c' ≠ c) : lookupCount (setCount m c n) c' = lookupCount m c' := by
  induction m with
  | nil => simp [setCount, lookupCount, Ne.symm h]
  | cons p m ih =>
    rw [setCount]
    split
    · next hp =>
      rw [lookupCount, if_neg (by simpa using Ne.symm h), lookupCount,
        if_neg (by rw [hp]; exact Ne.symm h)]
    · rw [lookupCount, lookupCount, ih]

theorem counts_le_setCountMax (m : List (Char × Nat)) (c : Char) (k : Nat)
    (c' : Char) :
    lookupCount m c' ≤ lookupCount (setCount m c (max (lookupCount m c) k)) c' := by
  by_cases h : c' = c
  · subst h
    rw [lookupCount_setCount_self]
    exact le_max_left _ _
  · rw [lookupCount_setCount_ne _ _ _ _ h]

theorem get?_set_some {α : Type} (l : List α) (i j : Nat) (a : α) :
    (l.set i a).get? j = if i = j ∧ j < l.length then some a else l.get? j := by
  induction l generalizing i j with
  | nil => simp
  | cons x l ih =>
    cases i with
    | zero =>
      cases j with
      | zero => simp
      | succ j => simp
    | succ i =>
      cases j with
      | zero => simp
      | succ j =>
        simp only [List.set_cons_succ, List.get?_cons_succ, List.length_cons, ih]
        by_cases hij : i = j ∧ j < l.length
        · rw [if_pos hij, if_pos ⟨by omega, by omega⟩]
        · rw [if_neg hij, if_neg (by omega)]

/-- A single `update_with_result` only strengthens constraint state:
`present_letters` and `absent_letters` only gain members, every recorded
minimum count only rises, and a correct-position slot that was set stays
set (to some letter). -/
def grows (s s' : WordleSolver) : Prop :=
  (∀ c, c ∈ s.present_letters → c ∈ s'.present_letters)
    ∧ (∀ c, c ∈ s.absent_letters → c ∈ s'.absent_letters)
    ∧ (∀ c, lookupCount s.known_letter_counts c
        ≤ lookupCount s'.known_letter_counts c)
    ∧ (∀ i c, s.correct_positions.get? i = some (some c) →
        ∃ c', s'.correct_positions.get? i = some (some c'))

theorem grows_refl (s : WordleSolver) : grows s s :=
  ⟨fun _ h => h, fun _ h => h, fun _ => le_refl _, fun _ c h => ⟨c, h⟩⟩

theorem grows_trans (a b c : WordleSolver) (h1 : grows a b) (h2 : grows b c) :
    grows a c := by
  obtain ⟨p1, a1, k1, s1⟩ := h1
  obtain ⟨p2, a2, k2, s2⟩ := h2
  refine ⟨fun x h => p2 x (p1 x h), fun x h => a2 x (a1 x h),
    fun x => le_trans (k1 x) (k2 x), ?_⟩
  intro i x h
  obtain ⟨y, hy⟩ := s1 i x h
  exact s2 i y hy

theorem grows_pass1step (wc : Char → Nat) (s : WordleSolver)
    (p : Nat × Char × LetterState) : grows s (pass1step wc s p) := by
  unfold pass1step
  split
  · refine ⟨fun c h => mem_addChar_of_mem _ _ _ h, fun c h => h,
      counts_le_setCountMax _ _ _, ?_⟩
    intro i c h
    rw [get?_set_some]
    split
    · exact ⟨p.2.1, rfl⟩
    · exact ⟨c, h⟩
  · exact grows_refl s

theorem grows_pass2step (wc : Char → Nat) (s : WordleSolver)
    (p : Nat × Char × LetterState) : grows s (pass2step wc s p) := by
  unfold pass2step
  dsimp only
  split
  · split
    · exact ⟨fun c h => mem_addChar_of_mem _ _ _ h, fun c h => h,
        counts_le_setCountMax _ _ _, fun i c h => ⟨c, h⟩⟩
    · exact ⟨fun c h => mem_addChar_of_mem _ _ _ h, fun c h => h,
        fun c => le_refl _, fun i c h => ⟨c, h⟩⟩
  · exact grows_refl s

theorem grows_pass3step (s : WordleSolver) (p : Nat × Char × LetterState) :
    grows s (pass3step s p) := by
  unfold pass3step
  split
  · split
    · exact ⟨fun c h => h, fun c h => mem_addChar_of_mem _ _ _ h,
        fun c => le_refl _, fun i c h => ⟨c, h⟩⟩
    · exact grows_refl s
  · exact grows_refl s

theorem grows_update (s : WordleSolver) (w : List Char) (st : List LetterState) :
    grows s (s.update_with_result w st) := by
  unfold WordleSolver.update_with_result
  dsimp only
  exact grows_trans _ _ _
    (grows_trans _ _ _
      (foldl_preserve (pass1step (fun c => w.count c)) grows grows_refl
        grows_trans (grows_pass1step _) ((w.zip st).enum) s)
      (foldl_preserve (pass2step (fun c => w.count c)) grows grows_refl
        grows_trans (grows_pass2step _) ((w.zip st).enum)
        (pass1 (fun c => w.count c) s ((w.zip st).enum))))
    (foldl_preserve pass3step grows grows_refl
      grows_trans grows_pass3step ((w.zip st).enum)
      (pass2 (fun c => w.count c)
        (pass1 (fun c => w.count c) s ((w.zip st).enum)) ((w.zip st).enum)))

/-- C10 (amended): each `update_with_result` call only strengthens the
solver's constraints — it never removes a letter from `present_letters`
or `absent_letters`, never decreases a recorded minimum letter count,
and never clears an already-set `correct_positions` slot back to `None`;
only `reset` clears constraint state.  (The one exception to the claim
as stated: a set slot CAN be overwritten with a different letter when a
later call marks that position correct for another letter — see the
counterexample.) -/
theorem C10_update_monotone_amended (s : WordleSolver) (w : List Char)
    (st : List LetterState) :
    (∀ c, c ∈ s.present_letters → c ∈ (s.update_with_result w st).present_letters)
      ∧ (∀ c, c ∈ s.absent_letters → c ∈ (s.update_with_result w st).absent_letters)
      ∧ (∀ c, lookupCount s.known_letter_counts c
          ≤ lookupCount (s.update_with_result w st).known_letter_counts c)
      ∧ (∀ i c, s.correct_positions.get? i = some (some c) →
          ∃ c', (s.update_with_result w st).correct_positions.get? i
            = some (some c')) :=
  grows_update s w st

/-- Concrete solver state: after a reset, `a` was marked correct at
position 0. -/
def c10a : WordleSolver :=
  (WordleSolver.init []).update_with_result ['a','z','z','z','z']
    [.correct, .absent, .absent, .absent, .absent]

/-- A further update marking `b` correct at position 0. -/
def c10b : WordleSolver :=
  c10a.update_with_result ['b','z','z','z','z']
    [.correct, .absent, .absent, .absent, .absent]

/-- C10 counterexample: a single `update_with_result` call changes the
already-set correct-position slot 0 from `a` to a different letter `b`,
so the claim as stated (a set slot is never changed to a different
letter) is false. -/
theorem C10_slot_overwrite_counterexample :
    c10a.correct_positions.get? 0 = some (some 'a')
      ∧ c10b.correct_positions.get? 0 = some (some 'b') := by
  decide

theorem C10_update_monotone_witness :
    ('z' ∈ c10b.absent_letters)
      ∧ lookupCount c10a.known_letter_counts 'a'
          ≤ lookupCount c10b.known_letter_counts 'a'
      ∧ (∃ c', c10b.correct_positions.get? 0 = some (some c')) :=
  ⟨(C10_update_monotone_amended c10a ['b','z','z','z','z']
      [.correct, .absent, .absent, .absent, .absent]).2.1 'z' (by decide),
   (C10_update_monotone_amended c10a ['b','z','z','z','z']
      [.correct, .absent, .absent, .absent, .absent]).2.2.1 'a',
   (C10_update_monotone_amended c10a ['b','z','z','z','z']
      [.correct, .absent, .absent, .absent, .absent]).2.2.2 0 'a' (by decide)⟩

/-! ## Theorems: session staleness, startup load, cancellation
(C6, C7, C9) -/

/-- The record's serialized game state reconstructs (otherwise
`load_session` returns `None` for an unrelated reason: the
`GameState.from_dict` exception). -/
def recParses (rec : PersistRecord) : Bool :=
  match rec.game_state with
  | none => true
  | some gd => (GameState.from_dict gd).isSome

/-- C6 (amended): an inactive session idle beyond `SESSION_TIMEOUT` is
removed by the periodic sweep, as claimed; but the load-time check at
startup tests `session.active AND stale`, the opposite polarity — it
deletes only records marked ACTIVE that exceed the timeout, while an
INACTIVE stale record is admitted into the registry with its file kept
(see the counterexample). -/
theorem C6_stale_removal_amended :
    (∀ (now : Nat) (m : Registry) kv, kv ∈ m → kv.2.active = false →
      SESSION_TIMEOUT < now - kv.2.last_activity →
      kv ∉ cleanup_stale_once now m)
    ∧ (∀ (now : Nat) rec, rec.active = true →
        SESSION_TIMEOUT < now - rec.last_activity → recParses rec = true →
        load_session now (some rec) = { result := none, file_deleted := true })
    ∧ (∀ (now : Nat) rec, rec.active = false → recParses rec = true →
        (load_session now (some rec)).result ≠ none
          ∧ (load_session now (some rec)).file_deleted = false) := by
  refine ⟨?_, ?_, ?_⟩
  · intro now m kv hm hact hstale hmem
    rw [cleanup_stale_once, List.mem_filter] at hmem
    rw [hact] at hmem
    simp [hstale] at hmem
  · intro now rec hact hstale hparse
    unfold load_session
    unfold recParses at hparse
    cases hg : rec.game_state with
    | none => simp [hg, hact, hstale]
    | some gd =>
      rw [hg] at hparse
      cases hfd : GameState.from_dict gd with
      | none => simp [hfd] at hparse
      | some g => simp [hg, hfd, hact, hstale]
  · intro now rec hact hparse
    unfold load_session
    unfold recParses at hparse
    cases hg : rec.game_state with
    | none => simp [hg, hact]
    | some gd =>
      rw [hg] at hparse
      cases hfd : GameState.from_dict gd with
      | none => simp [hfd] at hparse
      | some g => simp [hg, hfd, hact]

/-- An inactive persisted record long past the timeout. -/
def staleRec : PersistRecord :=
  { user_id := 7, session_name := "a", active := false, last_activity := 0,
    game_state := none }

/-- The same record marked active. -/
def activeStaleRec : PersistRecord := { staleRec with active := true }

/-- An inactive in-memory session long past the timeout. -/
def staleSession : UserSession :=
  { user_id := 7, session_name := "a", active := false, last_activity := 0,
    game_state := none, has_task := false }

/-- C6 counterexample: a record marked inactive with `last_activity`
older than `SESSION_TIMEOUT` is NOT removed by the load-time staleness
check — `load_session` admits it and keeps its file — contradicting the
claim that such a session is removed by both the sweep and the load-time
check. -/
theorem C6_inactive_stale_admitted_at_load :
    staleRec.active = false
      ∧ SESSION_TIMEOUT < 10000 - staleRec.last_activity
      ∧ (load_session 10000 (some staleRec)).result ≠ none
      ∧ (load_session 10000 (some staleRec)).file_deleted = false := by
  decide

theorem C6_stale_removal_witness :
    ((⟨7, "a"⟩, staleSession) ∉ cleanup_stale_once 10000 [(⟨7, "a"⟩, staleSession)])
      ∧ load_session 10000 (some activeStaleRec)
          = { result := none, file_deleted := true }
      ∧ ((load_session 10000 (some staleRec)).result ≠ none
          ∧ (load_session 10000 (some staleRec)).file_deleted = false) :=
  ⟨C6_stale_removal_amended.1 10000 [(⟨7, "a"⟩, staleSession)]
      (⟨7, "a"⟩, staleSession) (by decide) (by decide) (by decide),
   C6_stale_removal_amended.2.1 10000 activeStaleRec (by decide) (by decide)
      (by decide),
   C6_stale_removal_amended.2.2 10000 staleRec (by decide) (by decide)⟩

/-- C9: the claim is right and the code violates it:
`_load_persisted_sessions` stores `UserSession.load_session(...)` under
the key unconditionally, and `load_session` returns `None` for a record
marked active whose `last_activity` exceeds the timeout — so after
startup the registry's map can bind a key to `None`, on which any later
field access (e.g. `create_session`'s `.last_activity` during eviction)
fails. -/
theorem C9_registry_binds_none :
    load_persisted_sessions 4000 [activeStaleRec]
      = [(⟨7, "a"⟩, (none : Option UserSession))]
      ∧ activeStaleRec.active = true
      ∧ SESSION_TIMEOUT < 4000 - activeStaleRec.last_activity := by
  decide

/-- C7 (amended): on cancellation, the autoplay loop's
`except asyncio.CancelledError` handler stops the loop, marks the
session inactive, leaves every other session field unchanged, and
re-raises the cancellation to its caller — but it does NOT persist the
session's state: the durable record is left exactly as it was (there is
no `_save_session` call in the handler; see the counterexample). -/
theorem C7_cancellation_amended (w : TaskWorld) :
    (on_cancelled w).2 = true
      ∧ (on_cancelled w).1.session.active = false
      ∧ (on_cancelled w).1.persisted = w.persisted
      ∧ (on_cancelled w).1.session.game_state = w.session.game_state
      ∧ (on_cancelled w).1.session.last_activity = w.session.last_activity :=
  ⟨rfl, rfl, rfl, rfl, rfl⟩

/-- A session mid-game whose durable record is in sync with it. -/
def c7session : UserSession :=
  { user_id := 7, session_name := "a", active := true, last_activity := 5,
    game_state := some (GameState.fresh "g" 0), has_task := true }

/-- The world seen by the cancellation handler for `c7session`. -/
def c7world : TaskWorld :=
  { session := c7session, persisted := some (save_record c7session) }

/-- C7 counterexample: the cancellation handler re-raises and marks the
session inactive, but the durable record afterwards is NOT the
serialization of the session's current state (it still says
`active = true`), so the claim that the handler persists the session's
current state is false. -/
theorem C7_no_persist_on_cancel :
    (on_cancelled c7world).2 = true
      ∧ (on_cancelled c7world).1.session.active = false
      ∧ (on_cancelled c7world).1.persisted
          ≠ some (save_record (on_cancelled c7world).1.session) := by
  decide

/-! ## Theorems: per-user session cap and eviction (C5) -/

theorem oldestKey_mem (m : Registry) (k : SessionKey) (ks : List SessionKey) :
    oldestKey m k ks ∈ k :: ks := by
  induction ks generalizing k with
  | nil => simp [oldestKey]
  | cons k2 ks ih =>
    show oldestKey m (if activityOf m k2 < activityOf m k then k2 else k) ks
      ∈ k :: k2 :: ks
    by_cases hlt : activityOf m k2 < activityOf m k
    · rw [if_pos hlt]
      rcases List.mem_cons.mp (ih k2) with h | h
      · simp [h]
      · simp [h]
    · rw [if_neg hlt]
      rcases List.mem_cons.mp (ih k) with h | h
      · simp [h]
      · simp [h]

theorem oldestKey_min (m : Registry) (k : SessionKey) (ks : List SessionKey) :
    ∀ x ∈ k :: ks, activityOf m (oldestKey m k ks) ≤ activityOf m x := by
  induction ks generalizing k with
  | nil =>
    intro x hx
    rcases List.mem_cons.mp hx with rfl | h
    · simp [oldestKey]
    · simp at h
  | cons k2 ks ih =>
    intro x hx
    show activityOf m
      (oldestKey m (if activityOf m k2 < activityOf m k then k2 else k) ks)
      ≤ activityOf m x
    have hself : ∀ b : SessionKey,
        activityOf m (oldestKey m b ks) ≤ activityOf m b :=
      fun b => ih b b (by simp)
    by_cases hlt : activityOf m k2 < activityOf m k
    · rw [if_pos hlt]
      rcases List.mem_cons.mp hx with rfl | hx
      · exact le_trans (hself k2) (le_of_lt hlt)
      rcases List.mem_cons.mp hx with rfl | hx
      · exact hself x
      · exact ih k2 x (by simp [hx])
    · rw [if_neg hlt]
      rcases List.mem_cons.mp hx with rfl | hx
      · exact hself x
      rcases List.mem_cons.mp hx with rfl | hx
      · exact le_trans (hself k) (le_of_not_lt hlt)
      · exact ih k x (by simp [hx])

theorem userKeys_mem (m : Registry) (uid : Nat) (k : SessionKey)
    (h : k ∈ userKeys m uid) : k.user_id = uid ∧ ∃ s, (k, s) ∈ m := by
  unfold userKeys at h
  rw [List.mem_map] at h
  obtain ⟨kv, hkv, rfl⟩ := h
  rw [List.mem_filter] at hkv
  refine ⟨by simpa using hkv.2, kv.2, ?_⟩
  rw [Prod.mk.eta]
  exact hkv.1

theorem lookupSession_of_mem (m : Registry) (k : SessionKey) (s : UserSession)
    (hm : (k, s) ∈ m) : ∃ s', lookupSession m k = some s' := by
  have hsome : (m.find? (fun kv => kv.1 == k)).isSome := by
    rw [List.find?_isSome]
    exact ⟨(k, s), hm, by simp⟩
  obtain ⟨p, hp⟩ := Option.isSome_iff_exists.mp hsome
  exact ⟨p.2, by simp [lookupSession, hp]⟩

theorem disconnect_found (m : Registry) (k : SessionKey) (s : UserSession)
    (h : lookupSession m k = some s) :
    disconnect_session m k
      = { registry := m.filter (fun kv => !(kv.1 == k)), existed := true,
          cancelled_task := s.has_task, removed_record := true } := by
  unfold disconnect_session
  rw [h]

theorem dictSet_of_not_mem (m : Registry) (k : SessionKey) (v : UserSession)
    (h : ∀ kv ∈ m, kv.1 ≠ k) : dictSet m k v = m ++ [(k, v)] := by
  unfold dictSet
  rw [if_neg]
  intro hany
  rw [List.any_eq_true] at hany
  obtain ⟨kv, hkv, hb⟩ := hany
  exact h kv hkv (by simpa using hb)

/-- The session object `UserSession.__init__` builds for a new
connection. -/
def freshSession (uid : Nat) (session_name : String) (now : Nat) : UserSession :=
  { user_id := uid, session_name := session_name, active := false,
    last_activity := now, game_state := none, has_task := false }

/-- C5: when a session is created for a user who already holds the
per-user cap (`MAX_SESSIONS_PER_USER = 3`) of sessions, exactly the
session of that user with the smallest `last_activity` is disconnected —
its task cancelled when one is running, its in-memory entry and
persisted record removed — before the new session is inserted, and no
session of any other key (in particular of any other user) is removed.
Stated for a genuinely new key (the "connect a 4th session" scenario). -/
theorem C5_create_session_evicts_oldest (m : Registry) (uid : Nat)
    (session_name : String) (now : Nat)
    (hfresh : ∀ kv ∈ m, kv.1 ≠ ⟨uid, session_name⟩)
    (hcap : MAX_SESSIONS_PER_USER ≤ (userKeys m uid).length) :
    ∃ k0,
      (create_session m uid session_name now).evicted = some k0
      ∧ k0.user_id = uid
      ∧ k0 ∈ userKeys m uid
      ∧ (∀ k ∈ userKeys m uid, activityOf m k0 ≤ activityOf m k)
      ∧ (create_session m uid session_name now).evict_removed_record = true
      ∧ (∀ s0, lookupSession m k0 = some s0 →
          (create_session m uid session_name now).evict_cancelled_task
            = s0.has_task)
      ∧ (∀ kv ∈ m, kv.1 ≠ k0 →
          kv ∈ (create_session m uid session_name now).registry)
      ∧ (∀ kv ∈ (create_session m uid session_name now).registry,
          kv ∈ m ∨ kv = (⟨uid, session_name⟩,
            (create_session m uid session_name now).created))
      ∧ k0 ∉ ((create_session m uid session_name now).registry).map (·.1)
      ∧ (⟨uid, session_name⟩, (create_session m uid session_name now).created)
          ∈ (create_session m uid session_name now).registry := by
  cases hu : userKeys m uid with
  | nil =>
    rw [hu] at hcap
    simp [MAX_SESSIONS_PER_USER] at hcap
  | cons k0 ks =>
    have hmem0 : oldestKey m k0 ks ∈ userKeys m uid := by
      rw [hu]; exact oldestKey_mem m k0 ks
    obtain ⟨hid, s0, hs0⟩ := userKeys_mem m uid _ hmem0
    obtain ⟨sx, hlook⟩ := lookupSession_of_mem m _ s0 hs0
    have hrepr : create_session m uid session_name now
        = { registry := (m.filter (fun kv => !(kv.1 == oldestKey m k0 ks)))
                ++ [(⟨uid, session_name⟩, freshSession uid session_name now)],
            created := freshSession uid session_name now,
            evicted := some (oldestKey m k0 ks),
            evict_cancelled_task := sx.has_task,
            evict_removed_record := true } := by
      unfold create_session
      rw [if_pos hcap, hu]
      dsimp only
      rw [disconnect_found m _ sx hlook]
      rw [dictSet_of_not_mem _ _ _ ?keyfresh]
      · rfl
      case keyfresh =>
        intro kv hkv
        exact hfresh kv (List.mem_filter.mp hkv).1
    have hne : oldestKey m k0 ks ≠ ⟨uid, session_name⟩ :=
      hfresh (oldestKey m k0 ks, s0) hs0
    refine ⟨oldestKey m k0 ks, ?_, hid, hu ▸ hmem0, ?_, ?_, ?_, ?_, ?_, ?_, ?_⟩
    · rw [hrepr]
    · intro k hk
      exact oldestKey_min m k0 ks k hk
    · rw [hrepr]
    · intro s1 hs1
      rw [hrepr]
      rw [hlook] at hs1
      injection hs1 with hs1
      rw [hs1]
    · intro kv hkv hne1
      rw [hrepr]
      refine List.mem_append.mpr (Or.inl ?_)
      rw [List.mem_filter]
      exact ⟨hkv, by simpa using hne1⟩
    · intro kv hkv
      rw [hrepr] at hkv
      rcases List.mem_append.mp hkv with h | h
      · exact Or.inl (List.mem_filter.mp h).1
      · rw [hrepr]
        simp only [List.mem_singleton] at h
        exact Or.inr (by rw [h])
    · rw [hrepr]
      intro hmem
      simp only [List.map_append, List.mem_append] at hmem
      rcases hmem with h | h
      · rw [List.mem_map] at h
        obtain ⟨kv, hkv, hkv1⟩ := h
        have := (List.mem_filter.mp hkv).2
        rw [hkv1] at this
        simp at this
      · simp only [List.map_cons, List.map_nil, List.mem_singleton] at h
        exact hne h
    · rw [hrepr]
      exact List.mem_append.mpr (Or.inr (by simp))

/-- A fully concrete in-memory session. -/
def mkSess (u : Nat) (n : String) (t : Nat) : UserSession :=
  { user_id := u, session_name := n, active := true, last_activity := t,
    game_state := none, has_task := false }

/-- A registry holding three sessions of user 7 and one of user 8. -/
def demoReg : Registry :=
  [(⟨7, "a"⟩, mkSess 7 "a" 50), (⟨7, "b"⟩, mkSess 7 "b" 10),
   (⟨7, "c"⟩, mkSess 7 "c" 30), (⟨8, "d"⟩, mkSess 8 "d" 5)]

theorem C5_create_session_evicts_oldest_witness :
    ∃ k0,
      (create_session demoReg 7 "x" 100).evicted = some k0
      ∧ k0.user_id = 7
      ∧ k0 ∈ userKeys demoReg 7
      ∧ (∀ k ∈ userKeys demoReg 7, activityOf demoReg k0 ≤ activityOf demoReg k)
      ∧ (create_session demoReg 7 "x" 100).evict_removed_record = true
      ∧ (∀ s0, lookupSession demoReg k0 = some s0 →
          (create_session demoReg 7 "x" 100).evict_cancelled_task = s0.has_task)
      ∧ (∀ kv ∈ demoReg, kv.1 ≠ k0 →
          kv ∈ (create_session demoReg 7 "x" 100).registry)
      ∧ (∀ kv ∈ (create_session demoReg 7 "x" 100).registry,
          kv ∈ demoReg ∨ kv = (⟨7, "x"⟩, (create_session demoReg 7 "x" 100).created))
      ∧ k0 ∉ ((create_session demoReg 7 "x" 100).registry).map (·.1)
      ∧ (⟨7, "x"⟩, (create_session demoReg 7 "x" 100).created)
          ∈ (create_session demoReg 7 "x" 100).registry :=
  C5_create_session_evicts_oldest demoReg 7 "x" 100 (by decide) (by decide)

end WordChain
